import Mathlib
/-!
Shallow embedding of the DataSov Solana marketplace program
(`src/solana-component/programs/datasov-solana/src/lib.rs`).

Machine integers are embedded as `Nat` with explicit bounds / `% 2 ^ 64`
where the Rust code casts or could overflow.  `Pubkey`s and token accounts
are opaque identities, embedded as `Nat`.  Timestamps (`i64`) are `Int`.
Fallible code returns `Except`; a Rust panic (an `.unwrap()` on `None`, or
a fatal arithmetic abort) is the distinguished outcome `ProgErr.panicked`,
which is not a typed program error.
-/
/-- `DataType` enum of lib.rs (lines 329-337). -/
inductive DataType where
  | locationHistory
  | appUsage
  | purchaseHistory
  | healthData
  | socialMediaActivity
  | searchHistory
  | custom (s : String)
deriving DecidableEq, Repr
/-- `ErrorCode` enum of lib.rs (lines 339-351): the program's five typed
errors.  Note there is no `ArithmeticOverflow` variant. -/
inductive ErrorCode where
  | listingNotActive
  | invalidListingId
  | unauthorized
  | insufficientFunds
  | invalidPrice
deriving DecidableEq, Repr
/-- Outcome of running one instruction: a typed program error from a
`require!` (`ErrorCode`), a framework-level account failure (the `init`
constraint hitting an existing account, or a fetch of a missing account),
or a Rust panic aborting the transaction. -/
inductive ProgErr where
  | code (c : ErrorCode)
  | accountAlreadyExists
  | accountNotFound
  | panicked
deriving DecidableEq, Repr
/-- `Marketplace` account of lib.rs (lines 296-303).  `authority` is a
`Pubkey` (opaque identity); `fee_basis_points` is a `u16`;
`total_listings` and `total_volume` are `u64` counters. -/
structure Marketplace where
  authority : Nat
  fee_basis_points : Nat
  total_listings : Nat
  total_volume : Nat
  bump : Nat
deriving DecidableEq, Repr
/-- `DataListing` account of lib.rs (lines 309-322). -/
structure DataListing where
  id : Nat
  owner : Nat
  price : Nat
  data_type : DataType
  description : String
  is_active : Bool
  created_at : Int
  sold_at : Option Int
  cancelled_at : Option Int
  buyer : Option Nat
  bump : Nat
deriving DecidableEq, Repr
/-- One SPL-token `transfer` CPI call: source token account, destination
token account, amount. -/
structure TransferCall where
  source : Nat
  dest : Nat
  amount : Nat
deriving DecidableEq, Repr
/-- Rust `u128::checked_mul`: `none` exactly when the product would not
fit in 128 bits. -/
def checked_mul_u128 (a b : Nat) : Option Nat :=
  if a * b < 2 ^ 128 then some (a * b) else none
/-- Rust `u128::checked_div`: `none` exactly on division by zero. -/
def checked_div_u128 (a b : Nat) : Option Nat :=
  if b = 0 then none else some (a / b)
/-- Rust `u64::checked_sub`: `none` exactly when the subtraction would
underflow. -/
def checked_sub_u64 (a b : Nat) : Option Nat :=
  if b ≤ a then some (a - b) else none
/-- Modelled from the spec: the sources under src contain only lib.rs and
not the workspace build profile that fixes Rust's behavior for the plain
`+=` on the two `u64` counters (lib.rs lines 47 and 99).  The spec states
that counter overflow is fatal for the operation and the counters are
never silently wrapped or truncated, so the increment is embedded as a
checked 64-bit addition whose failure aborts the instruction (a panic,
which rolls the whole transaction back). -/
def checked_add_u64 (a b : Nat) : Option Nat :=
  if a + b < 2 ^ 64 then some (a + b) else none
/-- The fee-split arithmetic of `purchase_data` (lib.rs lines 64-70):
widened `u128` multiplication and division via `checked_mul`/`checked_div`
(each `.unwrap()`ped), a bare `as u64` down-cast (which truncates
modulo `2 ^ 64`), and `checked_sub(fee_amount).unwrap()`.  The result is
`none` exactly when one of the `.unwrap()`s panics. -/
def fee_split (purchase_amount : Nat) (fee_basis_points : Nat) : Option (Nat × Nat) :=
  match checked_mul_u128 purchase_amount fee_basis_points with
  | none => none
  | some prod =>
    match checked_div_u128 prod 10000 with
    | none => none
    | some q =>
      let fee_amount := q % 2 ^ 64
      match checked_sub_u64 purchase_amount fee_amount with
      | none => none
      | some owner_amount => some (fee_amount, owner_amount)
/-- `initialize_marketplace` handler (lib.rs lines 12-25): creates the
singleton with the given authority and fee rate and zeroed counters. -/
def initialize_marketplace (authority : Nat) (marketplace_fee_basis_points : Nat)
    (bump : Nat) : Marketplace :=
  { authority := authority
    fee_basis_points := marketplace_fee_basis_points
    total_listings := 0
    total_volume := 0
    bump := bump }
/-- `create_data_listing` handler (lib.rs lines 28-51): fills in the
freshly initialized listing account and increments `total_listings`. -/
def create_data_listing (mkt : Marketplace) (owner : Nat) (listing_id : Nat)
    (price : Nat) (data_type : DataType) (description : String) (now : Int)
    (bump : Nat) : Except ProgErr (DataListing × Marketplace) :=
  let listing : DataListing :=
    { id := listing_id
      owner := owner
      price := price
      data_type := data_type
      description := description
      is_active := true
      created_at := now
      sold_at := none
      cancelled_at := none
      buyer := none
      bump := bump }
  match checked_add_u64 mkt.total_listings 1 with
  | none => .error .panicked
  | some t => .ok (listing, { mkt with total_listings := t })
/-- `purchase_data` handler (lib.rs lines 54-103): checks `is_active` and
the asserted id, computes the fee split, issues the owner transfer and
(only when `fee_amount > 0`) the fee transfer in that order, marks the
listing sold, and adds the gross price to `total_volume`.
`btk`, `otk`, `mtk` are the buyer, owner and marketplace token accounts. -/
def purchase_data (listing : DataListing) (mkt : Marketplace) (buyer : Nat)
    (listing_id : Nat) (now : Int) (btk otk mtk : Nat) :
    Except ProgErr (DataListing × Marketplace × List TransferCall) :=
  if listing.is_active = false then .error (.code .listingNotActive)
  else if listing.id ≠ listing_id then .error (.code .invalidListingId)
  else
    let purchase_amount := listing.price
    match fee_split purchase_amount mkt.fee_basis_points with
    | none => .error .panicked
    | some (fee_amount, owner_amount) =>
      let transfers :=
        TransferCall.mk btk otk owner_amount ::
          (if fee_amount > 0 then [TransferCall.mk btk mtk fee_amount] else [])
      match checked_add_u64 mkt.total_volume purchase_amount with
      | none => .error .panicked
      | some tv =>
        .ok ({ listing with is_active := false, buyer := some buyer, sold_at := some now },
             { mkt with total_volume := tv },
             transfers)
/-- `update_listing_price` handler (lib.rs lines 106-119): `is_active`
check first, then the owner check, then `price := new_price`. -/
def update_listing_price (listing : DataListing) (caller : Nat) (new_price : Nat) :
    Except ProgErr DataListing :=
  if listing.is_active = false then .error (.code .listingNotActive)
  else if listing.owner ≠ caller then .error (.code .unauthorized)
  else .ok { listing with price := new_price }
/-- `cancel_listing` handler (lib.rs lines 122-135): `is_active` check
first, then the owner check, then deactivate and stamp `cancelled_at`. -/
def cancel_listing (listing : DataListing) (caller : Nat) (now : Int) :
    Except ProgErr DataListing :=
  if listing.is_active = false then .error (.code .listingNotActive)
  else if listing.owner ≠ caller then .error (.code .unauthorized)
  else .ok { listing with is_active := false, cancelled_at := some now }
/-- `withdraw_fees` handler (lib.rs lines 138-162): authority check, then
one transfer from the marketplace token account to the authority's;
no marketplace field is written. -/
def withdraw_fees (mkt : Marketplace) (caller : Nat) (amount : Nat)
    (mtk atk : Nat) : Except ProgErr (List TransferCall) :=
  if mkt.authority ≠ caller then .error (.code .unauthorized)
  else .ok [TransferCall.mk mtk atk amount]
/-- Global persistent state: the singleton `Marketplace` record plus the
keyed store of listing accounts, addressed by the `listing_id` their PDA
seeds are derived from (lib.rs lines 190 and 213: the key is an injective
function of the id, so the store is indexed by the id directly). -/
structure World where
  marketplace : Marketplace
  listings : Nat → Option DataListing
/-- The world right after `initialize_marketplace`: zeroed counters, no
listing accounts. -/
def initWorld (authority fee_bps bump : Nat) : World :=
  { marketplace := initialize_marketplace authority fee_bps bump
    listings := fun _ => none }
/-- One invocation of one of the five post-initialization instructions,
with its verified signer identity and its arguments. -/
inductive Op where
  | createListing (owner lid price : Nat) (dt : DataType) (desc : String)
      (now : Int) (bump : Nat)
  | purchase (buyer lid : Nat) (now : Int) (btk otk mtk : Nat)
  | reprice (caller lid new_price : Nat)
  | cancel (caller lid : Nat) (now : Int)
  | withdraw (caller amount mtk atk : Nat)
/-- Run one instruction against the world.  Account resolution mirrors the
`#[derive(Accounts)]` contexts: `create_data_listing` has an `init`
constraint (fails on an existing account, lib.rs lines 186-192), the other
listing instructions fetch the account at the id-derived key.  On success
the mutated accounts are written back; on any error nothing is. -/
def stepOp (w : World) (op : Op) : Except ProgErr World :=
  match op with
  | .createListing owner lid price dt desc now bump =>
    match w.listings lid with
    | some _ => .error .accountAlreadyExists
    | none =>
      match create_data_listing w.marketplace owner lid price dt desc now bump with
      | .error e => .error e
      | .ok (l, m) =>
        .ok { marketplace := m
              listings := fun i => if i = lid then some l else w.listings i }
  | .purchase buyer lid now btk otk mtk =>
    match w.listings lid with
    | none => .error .accountNotFound
    | some l =>
      match purchase_data l w.marketplace buyer lid now btk otk mtk with
      | .error e => .error e
      | .ok (l', m', _) =>
        .ok { marketplace := m'
              listings := fun i => if i = lid then some l' else w.listings i }
  | .reprice caller lid new_price =>
    match w.listings lid with
    | none => .error .accountNotFound
    | some l =>
      match update_listing_price l caller new_price with
      | .error e => .error e
      | .ok l' =>
        .ok { marketplace := w.marketplace
              listings := fun i => if i = lid then some l' else w.listings i }
  | .cancel caller lid now =>
    match w.listings lid with
    | none => .error .accountNotFound
    | some l =>
      match cancel_listing l caller now with
      | .error e => .error e
      | .ok l' =>
        .ok { marketplace := w.marketplace
              listings := fun i => if i = lid then some l' else w.listings i }
  | .withdraw caller amount mtk atk =>
    match withdraw_fees w.marketplace caller amount mtk atk with
    | .error e => .error e
    | .ok _ => .ok w
/-- The state the store holds after the instruction: the new world on
success, the untouched old world when the instruction failed (every
failure aborts the transaction before any write is committed). -/
def applyOp (w : World) (op : Op) : World :=
  match stepOp w op with
  | .ok w' => w'
  | .error _ => w
/-- Run a sequence of instructions, each against the state the previous
ones left behind. -/
def runTrace (w : World) (ops : List Op) : World :=
  match ops with
  | [] => w
  | op :: rest => runTrace (applyOp w op) rest
def mkt250 : Marketplace := initialize_marketplace 3 250 0
def soldL : DataListing :=
  ⟨1, 5, 1000000, .healthData, "gps", false, 0, some 2, none, some 9, 0⟩
def wSold : World := ⟨mkt250, fun i => if i = 1 then some soldL else none⟩
def cancelledL : DataListing :=
  ⟨1, 5, 1000000, .healthData, "gps", false, 0, none, some 3, none, 0⟩
def activeL : DataListing :=
  ⟨1, 5, 1000000, .healthData, "gps", true, 0, none, none, none, 0⟩
def soldActiveL : DataListing :=
  { activeL with is_active := false, buyer := some 9, sold_at := some 2 }
def soldMkt250 : Marketplace :=
  { mkt250 with total_volume := mkt250.total_volume + activeL.price }
def mktNoFee : Marketplace := initialize_marketplace 3 0 0
/-- Observer: does an instruction outcome carry one of the program's five
typed `ErrorCode`s (as opposed to succeeding, or aborting with a
framework error or a panic)? -/
def isTypedError {α : Type} (r : Except ProgErr α) : Bool :=
  match r with
  | .error (.code _) => true
  | _ => false
def wFull : World := ⟨⟨3, 250, 2 ^ 64 - 1, 0, 0⟩, fun _ => none⟩
def priceOneL : DataListing :=
  ⟨1, 5, 1, .appUsage, "a", true, 0, none, none, none, 0⟩
def wVolFull : World :=
  ⟨⟨3, 250, 0, 2 ^ 64 - 1, 0⟩, fun i => if i = 1 then some priceOneL else none⟩
def createsDelta (w : World) (op : Op) : Nat :=
  match op, stepOp w op with
  | .createListing _ _ _ _ _ _ _, .ok _ => 1
  | _, _ => 0
def volumeDelta (w : World) (op : Op) : Nat :=
  match op, stepOp w op with
  | .purchase _ lid _ _ _ _, .ok _ =>
    (match w.listings lid with
     | some l => l.price
     | none => 0)
  | _, _ => 0
def countCreates (w : World) (ops : List Op) : Nat :=
  match ops with
  | [] => 0
  | op :: rest => createsDelta w op + countCreates (applyOp w op) rest
def sumPurchases (w : World) (ops : List Op) : Nat :=
  match ops with
  | [] => 0
  | op :: rest => volumeDelta w op + sumPurchases (applyOp w op) rest
lemma fee_div_le (price bps : Nat) (hb : bps ≤ 10000) :
    price * bps / 10000 ≤ price := by
  have h1 : price * bps ≤ price * 10000 := Nat.mul_le_mul_left price hb
  calc price * bps / 10000 ≤ price * 10000 / 10000 := Nat.div_le_div_right h1
  _ = price := Nat.mul_div_cancel price (by norm_num)
lemma fee_split_eq (price bps : Nat) (hp : price < 2 ^ 64) (hb : bps ≤ 10000) :
    fee_split price bps =
      some (price * bps / 10000, price - price * bps / 10000) := by
  have hmul : price * bps < 2 ^ 128 := by
    calc price * bps ≤ price * 10000 := Nat.mul_le_mul_left price hb
    _ < 2 ^ 64 * 10000 := (Nat.mul_lt_mul_right (by norm_num)).mpr hp
    _ < 2 ^ 128 := by norm_num
  have hq : price * bps / 10000 ≤ price := fee_div_le price bps hb
  have hqlt : price * bps / 10000 < 2 ^ 64 := lt_of_le_of_lt hq hp
  unfold fee_split checked_mul_u128 checked_div_u128 checked_sub_u64
  rw [if_pos hmul]
  dsimp only
  rw [if_neg (by norm_num : ¬((10000 : Nat) = 0))]
  dsimp only
  rw [Nat.mod_eq_of_lt hqlt, if_pos hq]
/-- C1: for every 64-bit `price` and every `fee_basis_points` within the
valid range (at most 10000), the fee split computed in `purchase_data`
satisfies `fee_amount = floor(price * fee_basis_points / 10000)` and
`fee_amount + owner_amount = price`. -/
theorem purchase_fee_split_correct (price bps : Nat) (hp : price < 2 ^ 64)
    (hb : bps ≤ 10000) :
    fee_split price bps =
      some (price * bps / 10000, price - price * bps / 10000) ∧
    price * bps / 10000 + (price - price * bps / 10000) = price :=
  ⟨fee_split_eq price bps hp hb, Nat.add_sub_cancel' (fee_div_le price bps hb)⟩
/-- C1 witness at the spec's concrete scenario: price 1000000 with a fee
rate of 250 basis points splits into 25000 and 975000. -/
theorem purchase_fee_split_correct_witness :
    fee_split 1000000 250 =
      some (1000000 * 250 / 10000, 1000000 - 1000000 * 250 / 10000) ∧
    1000000 * 250 / 10000 + (1000000 - 1000000 * 250 / 10000) = 1000000 :=
  purchase_fee_split_correct 1000000 250 (by norm_num) (by norm_num)
/-- C2 counterexample: with `fee_basis_points = 30000` (a legal `u16`
above 10000) and `price = 2 ^ 63 + 1` the fee-split computation of
`purchase_data` fails: the `as u64` down-cast truncates the quotient to
`2 ^ 63 + 3 > price`, so `checked_sub` returns `None` and the `.unwrap()`
panics — refuting the claim that the computation never fails for every
16-bit `fee_basis_points`. -/
theorem fee_split_panics_above_valid_range :
    fee_split (2 ^ 63 + 1) 30000 = none := by decide
/-- C2 amended: the widened `u128` multiplication and the division by
10000 succeed for every 64-bit price and 16-bit fee rate; and restricted
to the valid range `fee_basis_points ≤ 10000` the whole fee-split
computation never fails and its `as u64` down-cast is lossless (the
quotient fits in 64 bits). -/
theorem fee_split_safe_in_valid_range :
    (∀ price bps : Nat, price < 2 ^ 64 → bps < 2 ^ 16 →
        checked_mul_u128 price bps = some (price * bps) ∧
        checked_div_u128 (price * bps) 10000 = some (price * bps / 10000)) ∧
    (∀ price bps : Nat, price < 2 ^ 64 → bps ≤ 10000 →
        (fee_split price bps).isSome = true ∧ price * bps / 10000 < 2 ^ 64) := by
  constructor
  · intro price bps hp hb
    have hmul : price * bps < 2 ^ 128 := by
      calc price * bps < 2 ^ 64 * 2 ^ 16 :=
        Nat.mul_lt_mul_of_lt_of_le hp (Nat.le_of_lt hb) (by norm_num)
      _ < 2 ^ 128 := by norm_num
    constructor
    · rw [checked_mul_u128, if_pos hmul]
    · rw [checked_div_u128, if_neg (by norm_num : ¬((10000 : Nat) = 0))]
  · intro price bps hp hb
    refine ⟨?_, lt_of_le_of_lt (fee_div_le price bps hb) hp⟩
    rw [fee_split_eq price bps hp hb]
    rfl
/-- C2 amended witness at the extreme in-range inputs: maximal price with
the maximal 16-bit rate (for the mul/div part) and with rate 10000 (for
the whole computation). -/
theorem fee_split_safe_in_valid_range_witness :
    (checked_mul_u128 (2 ^ 64 - 1) 65535 = some ((2 ^ 64 - 1) * 65535) ∧
      checked_div_u128 ((2 ^ 64 - 1) * 65535) 10000 =
        some ((2 ^ 64 - 1) * 65535 / 10000)) ∧
    ((fee_split (2 ^ 64 - 1) 10000).isSome = true ∧
      (2 ^ 64 - 1) * 10000 / 10000 < 2 ^ 64) :=
  ⟨fee_split_safe_in_valid_range.1 (2 ^ 64 - 1) 65535 (by norm_num) (by norm_num),
   fee_split_safe_in_valid_range.2 (2 ^ 64 - 1) 10000 (by norm_num) (by norm_num)⟩
lemma checked_add_u64_some {a b c : Nat} (h : checked_add_u64 a b = some c) :
    a + b < 2 ^ 64 ∧ c = a + b := by
  unfold checked_add_u64 at h
  split at h <;> simp_all
lemma create_data_listing_ok_inv {mkt : Marketplace} {owner lid price : Nat}
    {dt : DataType} {desc : String} {now : Int} {bump : Nat}
    {l : DataListing} {m' : Marketplace}
    (h : create_data_listing mkt owner lid price dt desc now bump = .ok (l, m')) :
    mkt.total_listings + 1 < 2 ^ 64 ∧
    l = { id := lid, owner := owner, price := price, data_type := dt,
          description := desc, is_active := true, created_at := now,
          sold_at := none, cancelled_at := none, buyer := none, bump := bump } ∧
    m' = { mkt with total_listings := mkt.total_listings + 1 } := by
  unfold create_data_listing at h
  cases hadd : checked_add_u64 mkt.total_listings 1 with
  | none => rw [hadd] at h; simp at h
  | some t =>
    rw [hadd] at h
    obtain ⟨hlt, ht⟩ := checked_add_u64_some hadd
    simp only [Except.ok.injEq, Prod.mk.injEq] at h
    exact ⟨hlt, h.1.symm, by rw [← h.2, ht]⟩
lemma purchase_data_ok_inv {l : DataListing} {m : Marketplace} {b lid : Nat}
    {now : Int} {btk otk mtk : Nat} {l' : DataListing} {m' : Marketplace}
    {tr : List TransferCall}
    (h : purchase_data l m b lid now btk otk mtk = .ok (l', m', tr)) :
    l.is_active = true ∧ l.id = lid ∧
    ∃ f o, fee_split l.price m.fee_basis_points = some (f, o) ∧
      m.total_volume + l.price < 2 ^ 64 ∧
      l' = { l with is_active := false, buyer := some b, sold_at := some now } ∧
      m' = { m with total_volume := m.total_volume + l.price } ∧
      tr = TransferCall.mk btk otk o ::
        (if f > 0 then [TransferCall.mk btk mtk f] else []) := by
  unfold purchase_data at h
  split at h
  · simp at h
  next hactive =>
  split at h
  · simp at h
  next hid' =>
  dsimp only at h
  split at h
  · simp at h
  next f o hfs =>
  split at h
  · simp at h
  next tv hadd =>
  obtain ⟨hlt, htv⟩ := checked_add_u64_some hadd
  simp only [Except.ok.injEq, Prod.mk.injEq] at h
  refine ⟨by simpa using hactive, not_not.mp hid', f, o, hfs, hlt,
    h.1.symm, ?_, ?_⟩
  · rw [← h.2.1, htv]
  · rw [← h.2.2]
lemma applyOp_of_err {w : World} {op : Op} {e : ProgErr}
    (h : stepOp w op = .error e) : applyOp w op = w := by
  unfold applyOp; rw [h]
lemma applyOp_of_ok {w : World} {op : Op} {w' : World}
    (h : stepOp w op = .ok w') : applyOp w op = w' := by
  unfold applyOp; rw [h]
lemma purchase_data_inactive {l : DataListing} (m : Marketplace)
    (b lid : Nat) (now : Int) (btk otk mtk : Nat)
    (hact : l.is_active = false) :
    purchase_data l m b lid now btk otk mtk =
      .error (.code .listingNotActive) := by
  simp [purchase_data, hact]
lemma update_listing_price_inactive {l : DataListing} (caller np : Nat)
    (hact : l.is_active = false) :
    update_listing_price l caller np = .error (.code .listingNotActive) := by
  simp [update_listing_price, hact]
lemma cancel_listing_inactive {l : DataListing} (caller : Nat) (now : Int)
    (hact : l.is_active = false) :
    cancel_listing l caller now = .error (.code .listingNotActive) := by
  simp [cancel_listing, hact]
lemma inactive_preserved {w : World} {lid : Nat} {l : DataListing}
    (hl : w.listings lid = some l) (hact : l.is_active = false) (op : Op) :
    (applyOp w op).listings lid = some l := by
  cases op with
  | createListing owner lid' price dt desc now bump =>
    by_cases e : lid' = lid
    · subst e
      have hstep : stepOp w (.createListing owner lid' price dt desc now bump) =
          .error .accountAlreadyExists := by
        simp only [stepOp, hl]
      rw [applyOp_of_err hstep, hl]
    · simp only [applyOp, stepOp]
      cases hx : w.listings lid' with
      | some _ => simp [hl]
      | none =>
        cases hc : create_data_listing w.marketplace owner lid' price dt desc now bump with
        | error e' => simp [hc, hl]
        | ok p => obtain ⟨l0, m0⟩ := p; simp [hc, hl, Ne.symm e]
  | purchase buyer lid' now btk otk mtk =>
    by_cases e : lid' = lid
    · subst e
      have hstep : stepOp w (.purchase buyer lid' now btk otk mtk) =
          .error (.code .listingNotActive) := by
        simp only [stepOp, hl,
          purchase_data_inactive w.marketplace buyer lid' now btk otk mtk hact]
      rw [applyOp_of_err hstep, hl]
    · simp only [applyOp, stepOp]
      cases hx : w.listings lid' with
      | none => simp [hl]
      | some l0 =>
        cases hc : purchase_data l0 w.marketplace buyer lid' now btk otk mtk with
        | error e' => simp [hc, hl]
        | ok p => obtain ⟨l1, m1, tr1⟩ := p; simp [hc, hl, Ne.symm e]
  | reprice caller lid' np =>
    by_cases e : lid' = lid
    · subst e
      have hstep : stepOp w (.reprice caller lid' np) =
          .error (.code .listingNotActive) := by
        simp only [stepOp, hl, update_listing_price_inactive caller np hact]
      rw [applyOp_of_err hstep, hl]
    · simp only [applyOp, stepOp]
      cases hx : w.listings lid' with
      | none => simp [hl]
      | some l0 =>
        cases hc : update_listing_price l0 caller np with
        | error e' => simp [hc, hl]
        | ok l1 => simp [hc, hl, Ne.symm e]
  | cancel caller lid' now =>
    by_cases e : lid' = lid
    · subst e
      have hstep : stepOp w (.cancel caller lid' now) =
          .error (.code .listingNotActive) := by
        simp only [stepOp, hl, cancel_listing_inactive caller now hact]
      rw [applyOp_of_err hstep, hl]
    · simp only [applyOp, stepOp]
      cases hx : w.listings lid' with
      | none => simp [hl]
      | some l0 =>
        cases hc : cancel_listing l0 caller now with
        | error e' => simp [hc, hl]
        | ok l1 => simp [hc, hl, Ne.symm e]
  | withdraw caller amount mtk atk =>
    simp only [applyOp, stepOp]
    cases hc : withdraw_fees w.marketplace caller amount mtk atk with
    | error e' => simp [hc, hl]
    | ok tr => simp [hl]
lemma update_listing_price_unauthorized {l : DataListing} (caller np : Nat)
    (hactive : l.is_active = true) (hne : l.owner ≠ caller) :
    update_listing_price l caller np = .error (.code .unauthorized) := by
  simp [update_listing_price, hactive, hne]
lemma cancel_listing_unauthorized {l : DataListing} (caller : Nat) (now : Int)
    (hactive : l.is_active = true) (hne : l.owner ≠ caller) :
    cancel_listing l caller now = .error (.code .unauthorized) := by
  simp [cancel_listing, hactive, hne]
lemma stepOp_purchase {w : World} {lid : Nat} {l : DataListing}
    (hl : w.listings lid = some l) (b : Nat) (now : Int) (btk otk mtk : Nat) :
    stepOp w (.purchase b lid now btk otk mtk) =
      match purchase_data l w.marketplace b lid now btk otk mtk with
      | .error e => .error e
      | .ok (l', m', _) =>
        .ok { marketplace := m'
              listings := fun i => if i = lid then some l' else w.listings i } := by
  simp only [stepOp, hl]
lemma stepOp_reprice {w : World} {lid : Nat} {l : DataListing}
    (hl : w.listings lid = some l) (caller np : Nat) :
    stepOp w (.reprice caller lid np) =
      match update_listing_price l caller np with
      | .error e => .error e
      | .ok l' =>
        .ok { marketplace := w.marketplace
              listings := fun i => if i = lid then some l' else w.listings i } := by
  simp only [stepOp, hl]
lemma stepOp_cancel {w : World} {lid : Nat} {l : DataListing}
    (hl : w.listings lid = some l) (caller : Nat) (now : Int) :
    stepOp w (.cancel caller lid now) =
      match cancel_listing l caller now with
      | .error e => .error e
      | .ok l' =>
        .ok { marketplace := w.marketplace
              listings := fun i => if i = lid then some l' else w.listings i } := by
  simp only [stepOp, hl]
/-- C3: a listing in a terminal state (`is_active = false`) rejects
`purchase_data`, `update_listing_price` and `cancel_listing` with
`ListingNotActive`; the persisted state is untouched by the failing calls,
and no operation whatsoever can change the terminal listing again. -/
theorem terminal_listing_rejects_all (w : World) (lid : Nat) (l : DataListing)
    (hl : w.listings lid = some l) (hact : l.is_active = false) :
    (∀ b now btk otk mtk,
        purchase_data l w.marketplace b lid now btk otk mtk =
          .error (.code .listingNotActive) ∧
        applyOp w (.purchase b lid now btk otk mtk) = w) ∧
    (∀ caller np,
        update_listing_price l caller np = .error (.code .listingNotActive) ∧
        applyOp w (.reprice caller lid np) = w) ∧
    (∀ caller now,
        cancel_listing l caller now = .error (.code .listingNotActive) ∧
        applyOp w (.cancel caller lid now) = w) ∧
    (∀ op, (applyOp w op).listings lid = some l) := by
  refine ⟨?_, ?_, ?_, inactive_preserved hl hact⟩
  · intro b now btk otk mtk
    have hp := purchase_data_inactive w.marketplace b lid now btk otk mtk hact
    exact ⟨hp, applyOp_of_err (by rw [stepOp_purchase hl, hp])⟩
  · intro caller np
    have hp := update_listing_price_inactive caller np hact
    exact ⟨hp, applyOp_of_err (by rw [stepOp_reprice hl, hp])⟩
  · intro caller now
    have hp := cancel_listing_inactive caller now hact
    exact ⟨hp, applyOp_of_err (by rw [stepOp_cancel hl, hp])⟩
/-- C3 witness: a sold listing (id 1) rejects a reprice attempt with
`ListingNotActive` and nothing is persisted. -/
theorem terminal_listing_rejects_all_witness :
    update_listing_price soldL 5 77 = .error (.code .listingNotActive) ∧
    applyOp wSold (.reprice 5 1 77) = wSold :=
  (terminal_listing_rejects_all wSold 1 soldL rfl rfl).2.1 5 77
/-- C4 counterexample: for the cancelled listing `cancelledL` (owner 5)
and the foreign caller 99, `update_listing_price` and `cancel_listing`
fail with `ListingNotActive`, not `Unauthorized`: the activity check runs
before the authorization check, so the claim's "Unauthorized regardless of
listing state" is false for terminal listings. -/
theorem wrong_caller_terminal_not_unauthorized :
    cancelledL.owner ≠ 99 ∧
    update_listing_price cancelledL 99 7 = .error (.code .listingNotActive) ∧
    update_listing_price cancelledL 99 7 ≠ .error (.code .unauthorized) ∧
    cancel_listing cancelledL 99 4 = .error (.code .listingNotActive) ∧
    cancel_listing cancelledL 99 4 ≠ .error (.code .unauthorized) := by
  refine ⟨by decide, rfl, ?_, rfl, ?_⟩ <;> simp [update_listing_price, cancel_listing, cancelledL]
/-- C4 amended: with a caller different from the owner, `reprice` and
`cancel` fail with `Unauthorized` when the listing is `Active`; when the
listing is terminal they fail with `ListingNotActive` (the activity check
precedes the authorization check); in either case nothing is persisted. -/
theorem reprice_cancel_wrong_caller (l : DataListing) (caller np : Nat)
    (now : Int) (hne : l.owner ≠ caller) :
    (l.is_active = true →
        update_listing_price l caller np = .error (.code .unauthorized) ∧
        cancel_listing l caller now = .error (.code .unauthorized)) ∧
    (l.is_active = false →
        update_listing_price l caller np = .error (.code .listingNotActive) ∧
        cancel_listing l caller now = .error (.code .listingNotActive)) ∧
    (∀ (w : World) (lid : Nat), w.listings lid = some l →
        applyOp w (.reprice caller lid np) = w ∧
        applyOp w (.cancel caller lid now) = w) := by
  refine ⟨fun ha => ⟨update_listing_price_unauthorized caller np ha hne,
      cancel_listing_unauthorized caller now ha hne⟩,
    fun ha => ⟨update_listing_price_inactive caller np ha,
      cancel_listing_inactive caller now ha⟩, ?_⟩
  intro w lid hl
  cases ha : l.is_active with
  | false =>
    exact ⟨applyOp_of_err (by rw [stepOp_reprice hl,
        update_listing_price_inactive caller np ha]),
      applyOp_of_err (by rw [stepOp_cancel hl,
        cancel_listing_inactive caller now ha])⟩
  | true =>
    exact ⟨applyOp_of_err (by rw [stepOp_reprice hl,
        update_listing_price_unauthorized caller np ha hne]),
      applyOp_of_err (by rw [stepOp_cancel hl,
        cancel_listing_unauthorized caller now ha hne])⟩
/-- C4 amended witness: caller 99 is not the owner 5 of the active listing
`activeL`, so a reprice attempt fails with `Unauthorized`. -/
theorem reprice_cancel_wrong_caller_witness :
    update_listing_price activeL 99 7 = .error (.code .unauthorized) ∧
    cancel_listing activeL 99 4 = .error (.code .unauthorized) :=
  (reprice_cancel_wrong_caller activeL 99 7 4 (by decide)).1 rfl
/-- C7: a successful `purchase_data` on a listing mutates exactly
`is_active := false`, `buyer := some buyer`, `sold_at := some now` on the
listing and adds the gross price to `total_volume`, leaving every other
listing and marketplace field unchanged; and an active listing whose
stored id differs from the asserted id is rejected with
`InvalidListingId`. -/
theorem purchase_success_mutation (l : DataListing) (m : Marketplace)
    (b lid : Nat) (now : Int) (btk otk mtk : Nat) :
    (∀ (l' : DataListing) (m' : Marketplace) (tr : List TransferCall),
        purchase_data l m b lid now btk otk mtk = .ok (l', m', tr) →
        l' = { l with is_active := false, buyer := some b, sold_at := some now } ∧
        m' = { m with total_volume := m.total_volume + l.price } ∧
        l'.id = l.id ∧ l'.owner = l.owner ∧ l'.price = l.price ∧
        l'.data_type = l.data_type ∧ l'.description = l.description ∧
        l'.created_at = l.created_at ∧ l'.cancelled_at = l.cancelled_at ∧
        m'.authority = m.authority ∧ m'.fee_basis_points = m.fee_basis_points ∧
        m'.total_listings = m.total_listings) ∧
    (l.is_active = true → l.id ≠ lid →
        purchase_data l m b lid now btk otk mtk =
          .error (.code .invalidListingId)) := by
  constructor
  · intro l' m' tr h
    obtain ⟨-, -, f, o, -, -, hl', hm', -⟩ := purchase_data_ok_inv h
    subst hl'; subst hm'
    exact ⟨rfl, rfl, rfl, rfl, rfl, rfl, rfl, rfl, rfl, rfl, rfl, rfl⟩
  · intro ha hid
    simp [purchase_data, ha, hid]
/-- C7 witness: the spec's concrete scenario (fee 250 basis points, price
1000000): purchase succeeds, the listing is sold to buyer 9 at time 2 and
`total_volume` rises by 1000000; asserting the wrong id 5 instead fails
with `InvalidListingId`. -/
theorem purchase_success_mutation_witness :
    (soldActiveL =
        { activeL with is_active := false, buyer := some 9, sold_at := some 2 } ∧
      soldMkt250 =
        { mkt250 with total_volume := mkt250.total_volume + activeL.price } ∧
      soldActiveL.id = activeL.id ∧ soldActiveL.owner = activeL.owner ∧
      soldActiveL.price = activeL.price ∧
      soldActiveL.data_type = activeL.data_type ∧
      soldActiveL.description = activeL.description ∧
      soldActiveL.created_at = activeL.created_at ∧
      soldActiveL.cancelled_at = activeL.cancelled_at ∧
      soldMkt250.authority = mkt250.authority ∧
      soldMkt250.fee_basis_points = mkt250.fee_basis_points ∧
      soldMkt250.total_listings = mkt250.total_listings) ∧
    purchase_data activeL mkt250 9 5 2 11 12 13 =
      .error (.code .invalidListingId) :=
  ⟨(purchase_success_mutation activeL mkt250 9 1 2 11 12 13).1
      soldActiveL soldMkt250 [⟨11, 12, 975000⟩, ⟨11, 13, 25000⟩] rfl,
   (purchase_success_mutation activeL mkt250 9 5 2 11 12 13).2 rfl (by decide)⟩
/-- C8: in every successful `purchase_data` the list of issued token
transfers starts with the owner transfer of `owner_amount`, and the fee
transfer to the marketplace token account exists only when
`fee_amount > 0`: with a zero fee the transfer list is exactly the single
owner transfer. -/
theorem purchase_transfer_order (l : DataListing) (m : Marketplace)
    (b lid : Nat) (now : Int) (btk otk mtk : Nat) (l' : DataListing)
    (m' : Marketplace) (tr : List TransferCall)
    (h : purchase_data l m b lid now btk otk mtk = .ok (l', m', tr)) :
    ∃ f o, fee_split l.price m.fee_basis_points = some (f, o) ∧
      tr = TransferCall.mk btk otk o ::
        (if f > 0 then [TransferCall.mk btk mtk f] else []) ∧
      tr.head? = some (TransferCall.mk btk otk o) ∧
      (f = 0 → tr = [TransferCall.mk btk otk o]) := by
  obtain ⟨-, -, f, o, hfs, -, -, -, htr⟩ := purchase_data_ok_inv h
  refine ⟨f, o, hfs, htr, ?_, ?_⟩
  · rw [htr]; rfl
  · intro hf
    rw [htr, hf]
    simp
/-- C8 witness: with a zero fee rate the purchase issues exactly one
transfer, the owner transfer of the full price; no zero-amount fee
transfer is emitted. -/
theorem purchase_transfer_order_witness :
    ∃ f o, fee_split activeL.price mktNoFee.fee_basis_points = some (f, o) ∧
      [TransferCall.mk 11 12 1000000] = TransferCall.mk 11 12 o ::
        (if f > 0 then [TransferCall.mk 11 13 f] else []) ∧
      ([TransferCall.mk 11 12 1000000] : List TransferCall).head? =
        some (TransferCall.mk 11 12 o) ∧
      (f = 0 → [TransferCall.mk 11 12 1000000] = [TransferCall.mk 11 12 o]) :=
  purchase_transfer_order activeL mktNoFee 9 1 2 11 12 13
    { activeL with is_active := false, buyer := some 9, sold_at := some 2 }
    { mktNoFee with total_volume := mktNoFee.total_volume + activeL.price }
    [TransferCall.mk 11 12 1000000] rfl
/-- C9: for an active listing repriced by its owner,
`update_listing_price` succeeds and changes exactly the `price` field;
at the store level the marketplace record is untouched and the listing is
replaced by the repriced one. -/
theorem reprice_exact_frame (l : DataListing) (caller np : Nat)
    (hactive : l.is_active = true) (hown : l.owner = caller) :
    update_listing_price l caller np = .ok { l with price := np } ∧
    ({ l with price := np } : DataListing).is_active = true ∧
    ({ l with price := np } : DataListing).id = l.id ∧
    ({ l with price := np } : DataListing).owner = l.owner ∧
    ({ l with price := np } : DataListing).data_type = l.data_type ∧
    ({ l with price := np } : DataListing).description = l.description ∧
    ({ l with price := np } : DataListing).created_at = l.created_at ∧
    ({ l with price := np } : DataListing).sold_at = l.sold_at ∧
    ({ l with price := np } : DataListing).cancelled_at = l.cancelled_at ∧
    ({ l with price := np } : DataListing).buyer = l.buyer ∧
    (∀ (w : World) (lid : Nat), w.listings lid = some l →
        (applyOp w (.reprice caller lid np)).marketplace = w.marketplace ∧
        (applyOp w (.reprice caller lid np)).listings lid =
          some { l with price := np }) := by
  have hup : update_listing_price l caller np = .ok { l with price := np } := by
    simp [update_listing_price, hactive, hown]
  refine ⟨hup, hactive, rfl, rfl, rfl, rfl, rfl, rfl, rfl, rfl, ?_⟩
  intro w lid hl
  have hs : stepOp w (.reprice caller lid np) =
      .ok { marketplace := w.marketplace
            listings := fun i => if i = lid then some { l with price := np }
              else w.listings i } := by
    rw [stepOp_reprice hl, hup]
  rw [applyOp_of_ok hs]
  exact ⟨rfl, by simp⟩
/-- C9 witness: the owner (5) reprices the active listing `activeL` to 42:
only `price` changes and the marketplace record of any store holding the
listing is untouched. -/
theorem reprice_exact_frame_witness :
    update_listing_price activeL 5 42 = .ok { activeL with price := 42 } ∧
    ({ activeL with price := 42 } : DataListing).is_active = true ∧
    ({ activeL with price := 42 } : DataListing).id = activeL.id ∧
    ({ activeL with price := 42 } : DataListing).owner = activeL.owner ∧
    ({ activeL with price := 42 } : DataListing).data_type = activeL.data_type ∧
    ({ activeL with price := 42 } : DataListing).description = activeL.description ∧
    ({ activeL with price := 42 } : DataListing).created_at = activeL.created_at ∧
    ({ activeL with price := 42 } : DataListing).sold_at = activeL.sold_at ∧
    ({ activeL with price := 42 } : DataListing).cancelled_at = activeL.cancelled_at ∧
    ({ activeL with price := 42 } : DataListing).buyer = activeL.buyer ∧
    (∀ (w : World) (lid : Nat), w.listings lid = some activeL →
        (applyOp w (.reprice 5 lid 42)).marketplace = w.marketplace ∧
        (applyOp w (.reprice 5 lid 42)).listings lid =
          some { activeL with price := 42 }) :=
  reprice_exact_frame activeL 5 42 rfl rfl
lemma checked_add_u64_none {a b : Nat} (h : ¬a + b < 2 ^ 64) :
    checked_add_u64 a b = none := by
  unfold checked_add_u64
  rw [if_neg h]
/-- C6 counterexample: with `total_listings = 2 ^ 64 - 1` a further
`create_data_listing` aborts with a panic, which is not one of the
program's typed errors — the `ErrorCode` enum of lib.rs has no
`ArithmeticOverflow` variant at all, so the claimed typed failure cannot
occur. -/
theorem counter_overflow_is_panic_not_typed :
    stepOp wFull (.createListing 5 1 10 .appUsage "d" 0 0) = .error .panicked ∧
    isTypedError (stepOp wFull (.createListing 5 1 10 .appUsage "d" 0 0)) = false :=
  ⟨rfl, rfl⟩
/-- C6 amended: when incrementing `total_listings` (in
`create_data_listing`) or adding the purchase price to `total_volume` (in
`purchase_data`) would leave the 64-bit range, the instruction aborts with
a panic — not with a typed `ArithmeticOverflow` error, which does not
exist in the program's `ErrorCode` — and no state is persisted; the
counters are never silently wrapped. -/
theorem counter_overflow_aborts :
    (∀ (w : World) (owner lid price : Nat) (dt : DataType) (desc : String)
        (now : Int) (bump : Nat), w.listings lid = none →
        2 ^ 64 ≤ w.marketplace.total_listings + 1 →
        stepOp w (.createListing owner lid price dt desc now bump) =
          .error .panicked ∧
        isTypedError
          (stepOp w (.createListing owner lid price dt desc now bump)) = false ∧
        applyOp w (.createListing owner lid price dt desc now bump) = w) ∧
    (∀ (w : World) (l : DataListing) (b lid : Nat) (now : Int)
        (btk otk mtk : Nat) (f o : Nat), w.listings lid = some l →
        l.is_active = true → l.id = lid →
        fee_split l.price w.marketplace.fee_basis_points = some (f, o) →
        2 ^ 64 ≤ w.marketplace.total_volume + l.price →
        stepOp w (.purchase b lid now btk otk mtk) = .error .panicked ∧
        isTypedError (stepOp w (.purchase b lid now btk otk mtk)) = false ∧
        applyOp w (.purchase b lid now btk otk mtk) = w) := by
  constructor
  · intro w owner lid price dt desc now bump hl hov
    have hc : create_data_listing w.marketplace owner lid price dt desc now bump =
        .error .panicked := by
      unfold create_data_listing
      rw [checked_add_u64_none (by omega)]
    have hs : stepOp w (.createListing owner lid price dt desc now bump) =
        .error .panicked := by
      simp only [stepOp, hl, hc]
    exact ⟨hs, by rw [hs]; rfl, applyOp_of_err hs⟩
  · intro w l b lid now btk otk mtk f o hl hact hid hfs hov
    have hc : purchase_data l w.marketplace b lid now btk otk mtk =
        .error .panicked := by
      simp only [purchase_data, hact, hid, Bool.true_eq_false, if_false,
        ite_false, ne_eq, not_true_eq_false]
      rw [hfs]
      dsimp only
      rw [checked_add_u64_none (by omega)]
    have hs : stepOp w (.purchase b lid now btk otk mtk) = .error .panicked := by
      simp only [stepOp, hl, hc]
    exact ⟨hs, by rw [hs]; rfl, applyOp_of_err hs⟩
/-- C6 amended witness: a marketplace whose `total_listings` is at the
64-bit maximum panics on the next creation, and one whose `total_volume`
is at the maximum panics on the next purchase; neither failure is a typed
error and neither mutates state. -/
theorem counter_overflow_aborts_witness :
    (stepOp wFull (.createListing 5 2 10 .appUsage "d" 0 0) = .error .panicked ∧
      isTypedError (stepOp wFull (.createListing 5 2 10 .appUsage "d" 0 0)) = false ∧
      applyOp wFull (.createListing 5 2 10 .appUsage "d" 0 0) = wFull) ∧
    (stepOp wVolFull (.purchase 9 1 2 11 12 13) = .error .panicked ∧
      isTypedError (stepOp wVolFull (.purchase 9 1 2 11 12 13)) = false ∧
      applyOp wVolFull (.purchase 9 1 2 11 12 13) = wVolFull) :=
  ⟨counter_overflow_aborts.1 wFull 5 2 10 .appUsage "d" 0 0 rfl (by decide),
   counter_overflow_aborts.2 wVolFull priceOneL 9 1 2 11 12 13 0 1 rfl rfl rfl rfl
     (by decide)⟩
lemma create_data_listing_err {mkt : Marketplace} {owner lid price : Nat}
    {dt : DataType} {desc : String} {now : Int} {bump : Nat} {e : ProgErr}
    (h : create_data_listing mkt owner lid price dt desc now bump = .error e) :
    e = .panicked := by
  unfold create_data_listing at h
  split at h
  · exact (Except.error.inj h).symm
  · simp at h
lemma purchase_data_err {l : DataListing} {m : Marketplace} {b lid : Nat}
    {now : Int} {btk otk mtk : Nat} {e : ProgErr}
    (h : purchase_data l m b lid now btk otk mtk = .error e) :
    e = .code .listingNotActive ∨ e = .code .invalidListingId ∨
      e = .panicked := by
  unfold purchase_data at h
  split at h
  · exact Or.inl (Except.error.inj h).symm
  split at h
  · exact Or.inr (Or.inl (Except.error.inj h).symm)
  dsimp only at h
  split at h
  · exact Or.inr (Or.inr (Except.error.inj h).symm)
  split at h
  · exact Or.inr (Or.inr (Except.error.inj h).symm)
  · simp at h
lemma update_listing_price_err {l : DataListing} {caller np : Nat} {e : ProgErr}
    (h : update_listing_price l caller np = .error e) :
    e = .code .listingNotActive ∨ e = .code .unauthorized := by
  unfold update_listing_price at h
  split at h
  · exact Or.inl (Except.error.inj h).symm
  split at h
  · exact Or.inr (Except.error.inj h).symm
  · simp at h
lemma cancel_listing_err {l : DataListing} {caller : Nat} {now : Int} {e : ProgErr}
    (h : cancel_listing l caller now = .error e) :
    e = .code .listingNotActive ∨ e = .code .unauthorized := by
  unfold cancel_listing at h
  split at h
  · exact Or.inl (Except.error.inj h).symm
  split at h
  · exact Or.inr (Except.error.inj h).symm
  · simp at h
lemma withdraw_fees_err {m : Marketplace} {caller amount mtk atk : Nat} {e : ProgErr}
    (h : withdraw_fees m caller amount mtk atk = .error e) :
    e = .code .unauthorized := by
  unfold withdraw_fees at h
  split at h
  · exact (Except.error.inj h).symm
  · simp at h
/-- C10: no operation validates prices.  No instruction ever fails with
`InvalidPrice` (the variant is dead); `create_data_listing` accepts any
64-bit price including zero, and `update_listing_price` accepts any new
price including zero. -/
theorem invalid_price_never_raised :
    (∀ (w : World) (op : Op), stepOp w op ≠ .error (.code .invalidPrice)) ∧
    (∀ (m : Marketplace) (owner lid price : Nat) (dt : DataType)
        (desc : String) (now : Int) (bump : Nat),
        m.total_listings + 1 < 2 ^ 64 →
        create_data_listing m owner lid price dt desc now bump =
          .ok ({ id := lid, owner := owner, price := price, data_type := dt,
                 description := desc, is_active := true, created_at := now,
                 sold_at := none, cancelled_at := none, buyer := none,
                 bump := bump },
               { m with total_listings := m.total_listings + 1 })) ∧
    (∀ (l : DataListing) (np : Nat), l.is_active = true →
        update_listing_price l l.owner np = .ok { l with price := np }) := by
  refine ⟨?_, ?_, ?_⟩
  · intro w op h
    cases op with
    | createListing owner lid price dt desc now bump =>
      simp only [stepOp] at h
      split at h
      · simp at h
      split at h
      next e' heq =>
        rw [create_data_listing_err heq] at h
        simp at h
      · simp at h
    | purchase b lid now btk otk mtk =>
      simp only [stepOp] at h
      split at h
      · simp at h
      split at h
      next e' heq =>
        rcases purchase_data_err heq with he | he | he <;> (rw [he] at h; simp at h)
      · simp at h
    | reprice caller lid np =>
      simp only [stepOp] at h
      split at h
      · simp at h
      split at h
      next e' heq =>
        rcases update_listing_price_err heq with he | he <;> (rw [he] at h; simp at h)
      · simp at h
    | cancel caller lid now =>
      simp only [stepOp] at h
      split at h
      · simp at h
      split at h
      next e' heq =>
        rcases cancel_listing_err heq with he | he <;> (rw [he] at h; simp at h)
      · simp at h
    | withdraw caller amount mtk atk =>
      simp only [stepOp] at h
      split at h
      next e' heq =>
        rw [withdraw_fees_err heq] at h
        simp at h
      · simp at h
  · intro m owner lid price dt desc now bump hlt
    unfold create_data_listing
    rw [show checked_add_u64 m.total_listings 1 =
        some (m.total_listings + 1) by unfold checked_add_u64; rw [if_pos hlt]]
  · intro l np ha
    simp [update_listing_price, ha]
/-- C10 witness: a fresh marketplace accepts a listing priced at zero, and
the owner may reprice an active listing to zero. -/
theorem invalid_price_never_raised_witness :
    create_data_listing mkt250 5 1 0 .appUsage "d" 0 0 =
      .ok ({ id := 1, owner := 5, price := 0, data_type := .appUsage,
             description := "d", is_active := true, created_at := 0,
             sold_at := none, cancelled_at := none, buyer := none, bump := 0 },
           { mkt250 with total_listings := mkt250.total_listings + 1 }) ∧
    update_listing_price activeL activeL.owner 0 =
      .ok { activeL with price := 0 } :=
  ⟨invalid_price_never_raised.2.1 mkt250 5 1 0 .appUsage "d" 0 0 (by decide),
   invalid_price_never_raised.2.2 activeL 0 rfl⟩
lemma total_listings_step (w : World) (op : Op) :
    (applyOp w op).marketplace.total_listings =
      w.marketplace.total_listings + createsDelta w op := by
  cases op with
  | createListing owner lid price dt desc now bump =>
    cases hx : w.listings lid with
    | some l0 =>
      have hs : stepOp w (.createListing owner lid price dt desc now bump) =
          .error .accountAlreadyExists := by simp only [stepOp, hx]
      rw [applyOp_of_err hs]
      unfold createsDelta
      rw [hs]
      rfl
    | none =>
      cases hc : create_data_listing w.marketplace owner lid price dt desc now bump with
      | error e =>
        have hs : stepOp w (.createListing owner lid price dt desc now bump) =
            .error e := by simp only [stepOp, hx, hc]
        rw [applyOp_of_err hs]
        unfold createsDelta
        rw [hs]
        rfl
      | ok p =>
        obtain ⟨l0, m0⟩ := p
        obtain ⟨hlt, hl0, hm0⟩ := create_data_listing_ok_inv hc
        have hs : stepOp w (.createListing owner lid price dt desc now bump) =
            .ok { marketplace := m0
                  listings := fun i => if i = lid then some l0 else w.listings i } := by
          simp only [stepOp, hx, hc]
        rw [applyOp_of_ok hs]
        unfold createsDelta
        rw [hs]
        subst hm0
        rfl
  | purchase b lid now btk otk mtk =>
    cases hx : w.listings lid with
    | none =>
      have hs : stepOp w (.purchase b lid now btk otk mtk) =
          .error .accountNotFound := by simp only [stepOp, hx]
      rw [applyOp_of_err hs]
      unfold createsDelta
      rw [hs]
      rfl
    | some l0 =>
      cases hc : purchase_data l0 w.marketplace b lid now btk otk mtk with
      | error e =>
        have hs : stepOp w (.purchase b lid now btk otk mtk) = .error e := by
          simp only [stepOp, hx, hc]
        rw [applyOp_of_err hs]
        unfold createsDelta
        rw [hs]
        rfl
      | ok p =>
        obtain ⟨l1, m1, tr1⟩ := p
        obtain ⟨-, -, f, o, -, -, -, hm1, -⟩ := purchase_data_ok_inv hc
        have hs : stepOp w (.purchase b lid now btk otk mtk) =
            .ok { marketplace := m1
                  listings := fun i => if i = lid then some l1 else w.listings i } := by
          simp only [stepOp, hx, hc]
        rw [applyOp_of_ok hs]
        unfold createsDelta
        rw [hs]
        subst hm1
        rfl
  | reprice caller lid np =>
    cases hx : w.listings lid with
    | none =>
      have hs : stepOp w (.reprice caller lid np) = .error .accountNotFound := by
        simp only [stepOp, hx]
      rw [applyOp_of_err hs]
      unfold createsDelta
      rw [hs]
      rfl
    | some l0 =>
      cases hc : update_listing_price l0 caller np with
      | error e =>
        have hs : stepOp w (.reprice caller lid np) = .error e := by
          simp only [stepOp, hx, hc]
        rw [applyOp_of_err hs]
        unfold createsDelta
        rw [hs]
        rfl
      | ok l1 =>
        have hs : stepOp w (.reprice caller lid np) =
            .ok { marketplace := w.marketplace
                  listings := fun i => if i = lid then some l1 else w.listings i } := by
          simp only [stepOp, hx, hc]
        rw [applyOp_of_ok hs]
        unfold createsDelta
        rw [hs]
        rfl
  | cancel caller lid now =>
    cases hx : w.listings lid with
    | none =>
      have hs : stepOp w (.cancel caller lid now) = .error .accountNotFound := by
        simp only [stepOp, hx]
      rw [applyOp_of_err hs]
      unfold createsDelta
      rw [hs]
      rfl
    | some l0 =>
      cases hc : cancel_listing l0 caller now with
      | error e =>
        have hs : stepOp w (.cancel caller lid now) = .error e := by
          simp only [stepOp, hx, hc]
        rw [applyOp_of_err hs]
        unfold createsDelta
        rw [hs]
        rfl
      | ok l1 =>
        have hs : stepOp w (.cancel caller lid now) =
            .ok { marketplace := w.marketplace
                  listings := fun i => if i = lid then some l1 else w.listings i } := by
          simp only [stepOp, hx, hc]
        rw [applyOp_of_ok hs]
        unfold createsDelta
        rw [hs]
        rfl
  | withdraw caller amount mtk atk =>
    cases hc : withdraw_fees w.marketplace caller amount mtk atk with
    | error e =>
      have hs : stepOp w (.withdraw caller amount mtk atk) = .error e := by
        simp only [stepOp, hc]
      rw [applyOp_of_err hs]
      unfold createsDelta
      rw [hs]
      rfl
    | ok tr =>
      have hs : stepOp w (.withdraw caller amount mtk atk) = .ok w := by
        simp only [stepOp, hc]
      rw [applyOp_of_ok hs]
      unfold createsDelta
      rw [hs]
      rfl
lemma total_volume_step (w : World) (op : Op) :
    (applyOp w op).marketplace.total_volume =
      w.marketplace.total_volume + volumeDelta w op := by
  cases op with
  | createListing owner lid price dt desc now bump =>
    cases hx : w.listings lid with
    | some l0 =>
      have hs : stepOp w (.createListing owner lid price dt desc now bump) =
          .error .accountAlreadyExists := by simp only [stepOp, hx]
      rw [applyOp_of_err hs]
      unfold volumeDelta
      rw [hs]
      rfl
    | none =>
      cases hc : create_data_listing w.marketplace owner lid price dt desc now bump with
      | error e =>
        have hs : stepOp w (.createListing owner lid price dt desc now bump) =
            .error e := by simp only [stepOp, hx, hc]
        rw [applyOp_of_err hs]
        unfold volumeDelta
        rw [hs]
        rfl
      | ok p =>
        obtain ⟨l0, m0⟩ := p
        obtain ⟨hlt, hl0, hm0⟩ := create_data_listing_ok_inv hc
        have hs : stepOp w (.createListing owner lid price dt desc now bump) =
            .ok { marketplace := m0
                  listings := fun i => if i = lid then some l0 else w.listings i } := by
          simp only [stepOp, hx, hc]
        rw [applyOp_of_ok hs]
        unfold volumeDelta
        rw [hs]
        subst hm0
        rfl
  | purchase b lid now btk otk mtk =>
    cases hx : w.listings lid with
    | none =>
      have hs : stepOp w (.purchase b lid now btk otk mtk) =
          .error .accountNotFound := by simp only [stepOp, hx]
      rw [applyOp_of_err hs]
      unfold volumeDelta
      rw [hs]
      rfl
    | some l0 =>
      cases hc : purchase_data l0 w.marketplace b lid now btk otk mtk with
      | error e =>
        have hs : stepOp w (.purchase b lid now btk otk mtk) = .error e := by
          simp only [stepOp, hx, hc]
        rw [applyOp_of_err hs]
        unfold volumeDelta
        rw [hs]
        rfl
      | ok p =>
        obtain ⟨l1, m1, tr1⟩ := p
        obtain ⟨-, -, f, o, -, -, -, hm1, -⟩ := purchase_data_ok_inv hc
        have hs : stepOp w (.purchase b lid now btk otk mtk) =
            .ok { marketplace := m1
                  listings := fun i => if i = lid then some l1 else w.listings i } := by
          simp only [stepOp, hx, hc]
        rw [applyOp_of_ok hs]
        unfold volumeDelta
        rw [hs]
        subst hm1
        simp [hx]
  | reprice caller lid np =>
    cases hx : w.listings lid with
    | none =>
      have hs : stepOp w (.reprice caller lid np) = .error .accountNotFound := by
        simp only [stepOp, hx]
      rw [applyOp_of_err hs]
      unfold volumeDelta
      rw [hs]
      rfl
    | some l0 =>
      cases hc : update_listing_price l0 caller np with
      | error e =>
        have hs : stepOp w (.reprice caller lid np) = .error e := by
          simp only [stepOp, hx, hc]
        rw [applyOp_of_err hs]
        unfold volumeDelta
        rw [hs]
        rfl
      | ok l1 =>
        have hs : stepOp w (.reprice caller lid np) =
            .ok { marketplace := w.marketplace
                  listings := fun i => if i = lid then some l1 else w.listings i } := by
          simp only [stepOp, hx, hc]
        rw [applyOp_of_ok hs]
        unfold volumeDelta
        rw [hs]
        rfl
  | cancel caller lid now =>
    cases hx : w.listings lid with
    | none =>
      have hs : stepOp w (.cancel caller lid now) = .error .accountNotFound := by
        simp only [stepOp, hx]
      rw [applyOp_of_err hs]
      unfold volumeDelta
      rw [hs]
      rfl
    | some l0 =>
      cases hc : cancel_listing l0 caller now with
      | error e =>
        have hs : stepOp w (.cancel caller lid now) = .error e := by
          simp only [stepOp, hx, hc]
        rw [applyOp_of_err hs]
        unfold volumeDelta
        rw [hs]
        rfl
      | ok l1 =>
        have hs : stepOp w (.cancel caller lid now) =
            .ok { marketplace := w.marketplace
                  listings := fun i => if i = lid then some l1 else w.listings i } := by
          simp only [stepOp, hx, hc]
        rw [applyOp_of_ok hs]
        unfold volumeDelta
        rw [hs]
        rfl
  | withdraw caller amount mtk atk =>
    cases hc : withdraw_fees w.marketplace caller amount mtk atk with
    | error e =>
      have hs : stepOp w (.withdraw caller amount mtk atk) = .error e := by
        simp only [stepOp, hc]
      rw [applyOp_of_err hs]
      unfold volumeDelta
      rw [hs]
      rfl
    | ok tr =>
      have hs : stepOp w (.withdraw caller amount mtk atk) = .ok w := by
        simp only [stepOp, hc]
      rw [applyOp_of_ok hs]
      unfold volumeDelta
      rw [hs]
      rfl
lemma runTrace_total_listings (ops : List Op) : ∀ w : World,
    (runTrace w ops).marketplace.total_listings =
      w.marketplace.total_listings + countCreates w ops := by
  induction ops with
  | nil => intro w; simp [runTrace, countCreates]
  | cons op rest ih =>
    intro w
    have h1 : runTrace w (op :: rest) = runTrace (applyOp w op) rest := rfl
    have h2 : countCreates w (op :: rest) =
        createsDelta w op + countCreates (applyOp w op) rest := rfl
    rw [h1, h2, ih (applyOp w op), total_listings_step w op]
    omega
lemma runTrace_total_volume (ops : List Op) : ∀ w : World,
    (runTrace w ops).marketplace.total_volume =
      w.marketplace.total_volume + sumPurchases w ops := by
  induction ops with
  | nil => intro w; simp [runTrace, sumPurchases]
  | cons op rest ih =>
    intro w
    have h1 : runTrace w (op :: rest) = runTrace (applyOp w op) rest := rfl
    have h2 : sumPurchases w (op :: rest) =
        volumeDelta w op + sumPurchases (applyOp w op) rest := rfl
    rw [h1, h2, ih (applyOp w op), total_volume_step w op]
    omega
/-- C5: starting from a freshly initialized marketplace, after any
sequence of operations `total_listings` equals the number of successful
listing creations in the sequence and `total_volume` equals the sum of
the gross prices of the successful purchases; moreover no operation ever
decreases either counter. -/
theorem marketplace_counters_correct :
    (∀ (authority fee_bps bump : Nat) (ops : List Op),
        (runTrace (initWorld authority fee_bps bump) ops).marketplace.total_listings =
          countCreates (initWorld authority fee_bps bump) ops ∧
        (runTrace (initWorld authority fee_bps bump) ops).marketplace.total_volume =
          sumPurchases (initWorld authority fee_bps bump) ops) ∧
    (∀ (w : World) (op : Op),
        w.marketplace.total_listings ≤ (applyOp w op).marketplace.total_listings ∧
        w.marketplace.total_volume ≤ (applyOp w op).marketplace.total_volume) := by
  constructor
  · intro a f bp ops
    constructor
    · rw [runTrace_total_listings ops (initWorld a f bp)]
      simp [initWorld, initialize_marketplace]
    · rw [runTrace_total_volume ops (initWorld a f bp)]
      simp [initWorld, initialize_marketplace]
  · intro w op
    constructor
    · rw [total_listings_step w op]
      exact Nat.le_add_right _ _
    · rw [total_volume_step w op]
      exact Nat.le_add_right _ _
